import Mathlib

/-!
Verification development for the bsonnumpy conversion engine: a schema
interpreter and BSON batch decoder that packs documents into fixed-layout
record arrays.  The engine itself is not part of the visible repository
(only its tests and benchmark call sites are), so the definitions below are
modelled from the specification and from the reference values asserted by
the test suite, as a shallow embedding: raw BSON documents are structured
association lists, the record buffer becomes the returned record values,
and fallible operations return `Except`.
-/

/-- Modelled from the spec: a BSON value as seen by the decoder.  The
engine only interprets numeric scalars, UTF-8 strings (held here as their
byte sequence), arrays and sub-documents; string keys identify elements of
a document. -/
inductive BsonValue where
  | int32 : Int → BsonValue
  | int64 : Int → BsonValue
  | strVal : List Nat → BsonValue
  | array : List BsonValue → BsonValue
  | document : List (String × BsonValue) → BsonValue

/-- Modelled from the spec: a Raw Document is one BSON document, an ordered
sequence of key/value elements. -/
abbrev RawDocument := List (String × BsonValue)

/-- Modelled from the spec: the type of one schema field: integer scalars of
4 or 8 bytes, fixed-width UTF-8 string, fixed-width opaque blob, a dense
fixed-size sub-array of a base type, or a nested sub-schema. -/
inductive FieldType where
  | int32 : FieldType
  | int64 : FieldType
  | fixedString : Nat → FieldType
  | fixedBinary : Nat → FieldType
  | subarray : List Nat → FieldType → FieldType
  | nested : List (String × FieldType) → FieldType

/-- Modelled from the spec: a Schema is an ordered sequence of named
fields. -/
abbrev Schema := List (String × FieldType)

mutual

/-- Modelled from the spec and the depth reference values of the test
suite: depth contributed by a single field.  A scalar field contributes 1,
a sub-array field contributes one level per shape dimension on top of its
base, and a field holding a nested sub-schema contributes that sub-schema's
own (standalone) depth. -/
def fieldTypeDepth : FieldType → Nat
  | FieldType.int32 => 1
  | FieldType.int64 => 1
  | FieldType.fixedString _ => 1
  | FieldType.fixedBinary _ => 1
  | FieldType.subarray dims base => fieldTypeDepth base + dims.length
  | FieldType.nested fields => 1 + fieldsMaxDepth fields

/-- Maximum of `fieldTypeDepth` over a field list (0 for the empty list). -/
def fieldsMaxDepth : List (String × FieldType) → Nat
  | [] => 0
  | (_, t) :: rest => max (fieldTypeDepth t) (fieldsMaxDepth rest)

end

/-- Modelled from the spec: the introspection entry point
`get_dtype_depth(schema)`: one plus the deepest field. -/
def get_dtype_depth (s : Schema) : Nat := 1 + fieldsMaxDepth s

mutual

/-- The per-field depth exactly as the recursive definition in the spec
words it, for comparison with `fieldTypeDepth`: a field holding a nested
Schema is assigned `1 + depth(nested Schema)` (and the nested Schema's
depth is itself `1 + ` the maximum over its fields). -/
def specFieldDepth : FieldType → Nat
  | FieldType.int32 => 1
  | FieldType.int64 => 1
  | FieldType.fixedString _ => 1
  | FieldType.fixedBinary _ => 1
  | FieldType.subarray dims base => specFieldDepth base + dims.length
  | FieldType.nested fields => 1 + (1 + specFieldsMax fields)

/-- Maximum of `specFieldDepth` over a field list. -/
def specFieldsMax : List (String × FieldType) → Nat
  | [] => 0
  | (_, t) :: rest => max (specFieldDepth t) (specFieldsMax rest)

end

/-- Schema depth exactly as the recursive definition in the spec words
it. -/
def specSchemaDepth (s : Schema) : Nat := 1 + specFieldsMax s

/-- The dtype `[('x', np.int32)]` from the test suite. -/
def dtype2 : Schema := [("x", FieldType.int32)]

/-- The dtype `[('x', '2int32'), ('y', 'S11'), ('z', 'V12')]`. -/
def dtype3 : Schema :=
  [("x", FieldType.subarray [2] FieldType.int32),
   ("y", FieldType.fixedString 11),
   ("z", FieldType.fixedBinary 12)]

/-- The dtype `[('x', '(3,3)int32'), ('y', np.int32)]`. -/
def dtype4 : Schema :=
  [("x", FieldType.subarray [3, 3] FieldType.int32), ("y", FieldType.int32)]

/-- The dtype `[('x', '(1,2,3,4,5,6,7,8)int32'), ('y', np.int32)]`. -/
def dtype10 : Schema :=
  [("x", FieldType.subarray [1, 2, 3, 4, 5, 6, 7, 8] FieldType.int32),
   ("y", FieldType.int32)]

/-- The dtype `[('x', dtype2)]`. -/
def dtype2_sub : Schema := [("x", FieldType.nested dtype2)]

/-- The dtype `[('x', dtype3)]`. -/
def dtype3_sub : Schema := [("x", FieldType.nested dtype3)]

/-- The dtype `[('x', dtype4)]`. -/
def dtype4_sub : Schema := [("x", FieldType.nested dtype4)]

/-- The dtype `[('x', dtype3), ('y', dtype10)]`. -/
def dtype10_sub : Schema :=
  [("x", FieldType.nested dtype3), ("y", FieldType.nested dtype10)]

/-- The dtype `[('x', dtype10_sub), ('y', dtype10)]`. -/
def dtype10_sub_sub : Schema :=
  [("x", FieldType.nested dtype10_sub), ("y", FieldType.nested dtype10)]

/-- Modelled from the spec: the decode-time error taxonomy.  A dotted field
path is carried for diagnosability. -/
inductive DecodeError where
  | fieldMissing : String → DecodeError
  | typeMismatch : String → DecodeError
  | shapeMismatch : String → DecodeError
  | exhaustedSource : DecodeError
deriving DecidableEq

/-- The decoded contents of one record slot, mirroring the schema shape:
integer scalars, fixed-width byte payloads (strings and blobs, always of
exactly the declared width), sub-arrays, and nested records. -/
inductive FieldValue where
  | intVal : Int → FieldValue
  | bytesVal : List Nat → FieldValue
  | arrVal : List FieldValue → FieldValue
  | recordVal : List (String × FieldValue) → FieldValue

/-- One decoded record: the decoded value of every schema field, in schema
order. -/
abbrev RecordValue := List (String × FieldValue)

/-- Two's-complement wrap of an integer to `width` bytes, the standard
binary narrowing conversion. -/
def wrapInt (width : Nat) (v : Int) : Int :=
  (v + 2 ^ (8 * width - 1)) % 2 ^ (8 * width) - 2 ^ (8 * width - 1)

/-- Little-endian bytes of a natural number, `count` bytes wide. -/
def leBytes : Nat → Nat → List Nat
  | 0, _ => []
  | Nat.succ k, n => n % 256 :: leBytes k (n / 256)

/-- Little-endian two's-complement encoding of an integer, `width` bytes
wide. -/
def intBytes (width : Nat) (v : Int) : List Nat :=
  leBytes width (v % (2 ^ (8 * width))).toNat

/-- UTF-8 bytes of a string (used for BSON element keys). -/
def utf8Bytes (s : String) : List Nat :=
  s.toUTF8.toList.map (fun b => b.toNat)

/-- The BSON wire type tag of a value. -/
def bsonTag : BsonValue → Nat
  | BsonValue.strVal _ => 2
  | BsonValue.document _ => 3
  | BsonValue.array _ => 4
  | BsonValue.int32 _ => 16
  | BsonValue.int64 _ => 18

/-- Frame a BSON document body with its length prefix and trailing NUL. -/
def wrapDoc (body : List Nat) : List Nat :=
  intBytes 4 (body.length + 5) ++ body ++ [0]

mutual

/-- The BSON wire encoding of a value (used for the raw bytes of opaque
blob fields). -/
def encodeValue : BsonValue → List Nat
  | BsonValue.int32 n => intBytes 4 n
  | BsonValue.int64 n => intBytes 8 n
  | BsonValue.strVal bs => intBytes 4 (bs.length + 1) ++ bs ++ [0]
  | BsonValue.document d => wrapDoc (encodeElems d)
  | BsonValue.array elems => wrapDoc (encodeArrayElems 0 elems)

/-- The concatenated element encodings of a document body. -/
def encodeElems : List (String × BsonValue) → List Nat
  | [] => []
  | (k, v) :: rest =>
    (bsonTag v :: (utf8Bytes k ++ [0])) ++ encodeValue v ++ encodeElems rest

/-- The concatenated element encodings of an array body, keys being the
decimal indices from `i` up. -/
def encodeArrayElems : Nat → List BsonValue → List Nat
  | _, [] => []
  | i, v :: rest =>
    (bsonTag v :: (utf8Bytes (toString i) ++ [0])) ++ encodeValue v ++
      encodeArrayElems (i + 1) rest

end

/-- First value bound to `name` in a document, `none` if the key is
absent. -/
def lookupKey (name : String) : List (String × BsonValue) → Option BsonValue
  | [] => none
  | (k, v) :: rest => if k = name then some v else lookupKey name rest

/-- Extend a dotted field path by one component. -/
def joinPath (path name : String) : String :=
  if path = "" then name else path ++ "." ++ name

mutual

/-- Modelled from the spec: decode one document value against one field
type.  Numeric sources are narrowed/widened to the declared width; strings
are truncated or zero-padded to the declared width; opaque blobs copy the
raw BSON bytes of a sub-document or array, zero-padded, failing if they
exceed the width; sub-arrays require the source array length to equal the
product of the declared shape dimensions; nested sub-schemas recurse on a
sub-document.  Any other source shape is a `typeMismatch`. -/
def decodeField : FieldType → String → BsonValue → Except DecodeError FieldValue
  | FieldType.int32, path, v =>
    match v with
    | BsonValue.int32 n => Except.ok (FieldValue.intVal n)
    | BsonValue.int64 n => Except.ok (FieldValue.intVal (wrapInt 4 n))
    | _ => Except.error (DecodeError.typeMismatch path)
  | FieldType.int64, path, v =>
    match v with
    | BsonValue.int32 n => Except.ok (FieldValue.intVal n)
    | BsonValue.int64 n => Except.ok (FieldValue.intVal n)
    | _ => Except.error (DecodeError.typeMismatch path)
  | FieldType.fixedString w, path, v =>
    match v with
    | BsonValue.strVal bs =>
      Except.ok (FieldValue.bytesVal (bs.take w ++ List.replicate (w - bs.length) 0))
    | _ => Except.error (DecodeError.typeMismatch path)
  | FieldType.fixedBinary w, path, v =>
    match v with
    | BsonValue.array _ =>
      if (encodeValue v).length ≤ w then
        Except.ok (FieldValue.bytesVal
          (encodeValue v ++ List.replicate (w - (encodeValue v).length) 0))
      else Except.error (DecodeError.typeMismatch path)
    | BsonValue.document _ =>
      if (encodeValue v).length ≤ w then
        Except.ok (FieldValue.bytesVal
          (encodeValue v ++ List.replicate (w - (encodeValue v).length) 0))
      else Except.error (DecodeError.typeMismatch path)
    | _ => Except.error (DecodeError.typeMismatch path)
  | FieldType.subarray dims base, path, v =>
    match v with
    | BsonValue.array elems =>
      if elems.length = dims.prod then
        match decodeElems base path elems with
        | Except.ok fvs => Except.ok (FieldValue.arrVal fvs)
        | Except.error e => Except.error e
      else Except.error (DecodeError.shapeMismatch path)
    | _ => Except.error (DecodeError.typeMismatch path)
  | FieldType.nested fields, path, v =>
    match v with
    | BsonValue.document d =>
      match decodeFields fields path d with
      | Except.ok fvs => Except.ok (FieldValue.recordVal fvs)
      | Except.error e => Except.error e
    | _ => Except.error (DecodeError.typeMismatch path)

/-- Decode the elements of a sub-array field in document order against the
base type, stopping at the first error. -/
def decodeElems : FieldType → String → List BsonValue → Except DecodeError (List FieldValue)
  | _, _, [] => Except.ok []
  | base, path, e :: rest =>
    match decodeField base path e with
    | Except.error err => Except.error err
    | Except.ok fv =>
      match decodeElems base path rest with
      | Except.error err => Except.error err
      | Except.ok fvs => Except.ok (fv :: fvs)

/-- Modelled from the spec: decode the fields of a (sub-)schema against a
document, in schema order.  A schema field whose key is absent from the
document fails `fieldMissing`; document keys not declared in the schema are
never consulted. -/
def decodeFields : List (String × FieldType) → String → RawDocument →
    Except DecodeError (List (String × FieldValue))
  | [], _, _ => Except.ok []
  | (name, t) :: rest, path, doc =>
    match lookupKey name doc with
    | none => Except.error (DecodeError.fieldMissing (joinPath path name))
    | some v =>
      match decodeField t (joinPath path name) v with
      | Except.error err => Except.error err
      | Except.ok fv =>
        match decodeFields rest path doc with
        | Except.error err => Except.error err
        | Except.ok fvs => Except.ok ((name, fv) :: fvs)

end

/-- Modelled from the spec: `decode_into` — decode one raw document into
one record slot.  The buffer write of the original becomes the returned
`RecordValue`. -/
def decodeDoc (s : Schema) (doc : RawDocument) : Except DecodeError RecordValue :=
  decodeFields s "" doc

/-- Modelled from the spec: the Batch Iterator Adapter normalizes the
admissible source shapes — an (in-memory or lazily produced) ordered
sequence of raw documents, or a sequence of pre-grouped batches — into one
forward-only pull primitive.  In a pure embedding an in-memory and a lazily
produced sequence are the same value, so the two sequence shapes share the
`docs` constructor. -/
inductive BatchSource where
  | docs : List RawDocument → BatchSource
  | batches : List (List RawDocument) → BatchSource

/-- Pull the next document from a batched source, skipping exhausted
batches, in batch order then document order. -/
def pullBatches : List (List RawDocument) → Option (RawDocument × BatchSource)
  | [] => none
  | [] :: rest => pullBatches rest
  | (d :: ds) :: rest => some (d, BatchSource.batches (ds :: rest))

/-- Modelled from the spec: the forward-only pull primitive of the Batch
Iterator Adapter: the next raw document and the remaining source, or `none`
when the source is exhausted. -/
def pull : BatchSource → Option (RawDocument × BatchSource)
  | BatchSource.docs [] => none
  | BatchSource.docs (d :: rest) => some (d, BatchSource.docs rest)
  | BatchSource.batches bs => pullBatches bs

/-- The overall document sequence a source will yield, batches flattened in
batch order then document order. -/
def toList : BatchSource → List RawDocument
  | BatchSource.docs l => l
  | BatchSource.batches bs => bs.flatten

/-- Modelled from the spec: the output of `build` — an opaque record
container tagged with `(shape=(record_count,), dtype=Schema)` metadata. -/
structure RecordArray where
  dtype : Schema
  records : List RecordValue

/-- The shape metadata of a record array: one dimension, the record
count. -/
def RecordArray.shape (a : RecordArray) : List Nat := [a.records.length]

/-- Modelled from the spec: the decode loop of the Record Array Builder.
For each of the `record_count` slots in order: pull the next raw document
(`exhaustedSource` if the source has fewer documents than declared), decode
it, and move on; the first error aborts the whole run. -/
def buildRecords (s : Schema) : BatchSource → Nat → Except DecodeError (List RecordValue)
  | _, 0 => Except.ok []
  | src, Nat.succ n =>
    match pull src with
    | none => Except.error DecodeError.exhaustedSource
    | some (d, rest) =>
      match decodeDoc s d with
      | Except.error e => Except.error e
      | Except.ok r =>
        match buildRecords s rest n with
        | Except.error e => Except.error e
        | Except.ok rs => Except.ok (r :: rs)

/-- Modelled from the spec: `build(schema, batch_source, record_count)`.
Either every slot decodes and a fully valid record array tagged with the
schema is returned, or the first error is surfaced and nothing is
returned. -/
def build (s : Schema) (src : BatchSource) (record_count : Nat) :
    Except DecodeError RecordArray :=
  match buildRecords s src record_count with
  | Except.error e => Except.error e
  | Except.ok rs => Except.ok { dtype := s, records := rs }

lemma fieldsMaxDepth_foldr (s : Schema) :
    fieldsMaxDepth s = (s.map (fun f => fieldTypeDepth f.2)).foldr max 0 := by
  induction s with
  | nil => simp [fieldsMaxDepth]
  | cons f rest ih => cases f with
    | mk name t => simp [fieldsMaxDepth, ih]

lemma buildRecords_ok_length {s : Schema} :
    ∀ {n : Nat} {src : BatchSource} {rs : List RecordValue},
      buildRecords s src n = Except.ok rs → rs.length = n := by
  intro n
  induction n with
  | zero =>
    intro src rs h
    simp [buildRecords] at h
    simp [← h]
  | succ n ih =>
    intro src rs h
    match hp : pull src with
    | none => simp [buildRecords, hp] at h
    | some (d, rest) =>
      match hd : decodeDoc s d with
      | Except.error e => simp [buildRecords, hp, hd] at h
      | Except.ok r =>
        match hb : buildRecords s rest n with
        | Except.error e => simp [buildRecords, hp, hd, hb] at h
        | Except.ok rs2 =>
          simp [buildRecords, hp, hd, hb] at h
          simp [← h, ih hb]

/-- C1: the batch of ten documents `{x: i, y: 10 - i}` decoded against the
schema `[('x', int32), ('y', int32)]` builds successfully, and the i-th
record is `(i, 10 - i)`: records appear in document order with each field
decoded exactly. -/
theorem claim1_round_trip :
    build [("x", FieldType.int32), ("y", FieldType.int32)]
      (BatchSource.docs ((List.range 10).map (fun i =>
        [("x", BsonValue.int32 i), ("y", BsonValue.int32 (10 - (i : Int)))]))) 10 =
    Except.ok
      { dtype := [("x", FieldType.int32), ("y", FieldType.int32)],
        records := (List.range 10).map (fun i =>
          [("x", FieldValue.intVal i), ("y", FieldValue.intVal (10 - (i : Int)))]) } := by
  have h : List.range 10 = [0, 1, 2, 3, 4, 5, 6, 7, 8, 9] := rfl
  rw [h]
  simp [build, buildRecords, pull, decodeDoc, decodeFields, decodeField,
    lookupKey, joinPath]

/-- C3: `get_dtype_depth` returns exactly the reference values asserted by
the test suite, and embedding any schema as the single nested field of
another schema yields depth one greater than its standalone depth. -/
theorem claim3_depth_reference_values :
    get_dtype_depth dtype2 = 2 ∧
    get_dtype_depth dtype3 = 3 ∧
    get_dtype_depth dtype4 = 4 ∧
    get_dtype_depth dtype10 = 10 ∧
    get_dtype_depth dtype2_sub = 3 ∧
    get_dtype_depth dtype3_sub = 4 ∧
    get_dtype_depth dtype4_sub = 5 ∧
    get_dtype_depth dtype10_sub = 11 ∧
    get_dtype_depth dtype10_sub_sub = 12 ∧
    ∀ (name : String) (s : Schema),
      get_dtype_depth [(name, FieldType.nested s)] = get_dtype_depth s + 1 := by
  refine ⟨?_, ?_, ?_, ?_, ?_, ?_, ?_, ?_, ?_, ?_⟩
  all_goals first
    | (intro name s
       simp [get_dtype_depth, fieldsMaxDepth, fieldTypeDepth]
       omega)
    | simp [get_dtype_depth, dtype2, dtype3, dtype4, dtype10, dtype2_sub,
        dtype3_sub, dtype4_sub, dtype10_sub, dtype10_sub_sub,
        fieldsMaxDepth, fieldTypeDepth]

/-- C4 counterexample: the schema `[('x', [('x', int32)])]` (the test
suite's `dtype2_sub`, required by the tests to have depth 3) has depth 4
under the recursion as the spec words it — the clause assigning a
nested-schema field depth `1 + depth(nested Schema)` over-counts — so
`get_dtype_depth` does not equal the spec's recursive definition. -/
theorem claim4_counterexample :
    get_dtype_depth dtype2_sub = 3 ∧ specSchemaDepth dtype2_sub = 4 ∧
      get_dtype_depth dtype2_sub ≠ specSchemaDepth dtype2_sub := by
  refine ⟨?_, ?_, ?_⟩ <;>
    simp [get_dtype_depth, specSchemaDepth, dtype2_sub, dtype2,
      fieldsMaxDepth, fieldTypeDepth, specFieldsMax, specFieldDepth]

/-- C4 (amended): `get_dtype_depth` satisfies the spec's recursion once the
nested-field clause is amended to assign a field holding a nested Schema
the depth of that Schema itself (not one more): a scalar field has depth 1,
a sub-array field adds one per shape dimension, and a schema's depth is one
plus the maximum over its fields' depths. -/
theorem claim4_amended_recursion :
    (fieldTypeDepth FieldType.int32 = 1 ∧
     fieldTypeDepth FieldType.int64 = 1 ∧
     (∀ w, fieldTypeDepth (FieldType.fixedString w) = 1) ∧
     (∀ w, fieldTypeDepth (FieldType.fixedBinary w) = 1)) ∧
    (∀ dims base, fieldTypeDepth (FieldType.subarray dims base) =
      fieldTypeDepth base + dims.length) ∧
    (∀ fields, fieldTypeDepth (FieldType.nested fields) = get_dtype_depth fields) ∧
    (∀ s : Schema,
      get_dtype_depth s = 1 + (s.map (fun f => fieldTypeDepth f.2)).foldr max 0) := by
  refine ⟨⟨?_, ?_, ?_, ?_⟩, ?_, ?_, ?_⟩
  · simp [fieldTypeDepth]
  · simp [fieldTypeDepth]
  · intro w; simp [fieldTypeDepth]
  · intro w; simp [fieldTypeDepth]
  · intro dims base; simp [fieldTypeDepth]
  · intro fields; simp [fieldTypeDepth, get_dtype_depth]
  · intro s; rw [get_dtype_depth, fieldsMaxDepth_foldr]

lemma pullBatches_none_iff (bs : List (List RawDocument)) :
    pullBatches bs = none ↔ bs.flatten = [] := by
  induction bs with
  | nil => simp [pullBatches]
  | cons b rest ih =>
    cases b with
    | nil => simpa [pullBatches] using ih
    | cons d ds => simp [pullBatches]

lemma pullBatches_some {bs : List (List RawDocument)} {d : RawDocument}
    {rest : BatchSource} (h : pullBatches bs = some (d, rest)) :
    bs.flatten = d :: toList rest := by
  induction bs with
  | nil => simp [pullBatches] at h
  | cons b tail ih =>
    cases b with
    | nil =>
      simp [pullBatches] at h
      simpa using ih h
    | cons e ds =>
      simp [pullBatches] at h
      obtain ⟨he, hrest⟩ := h
      subst he
      simp [← hrest, toList]

lemma pullBatches_cons {bs : List (List RawDocument)} {d : RawDocument}
    {l : List RawDocument} (h : bs.flatten = d :: l) :
    ∃ rest, pullBatches bs = some (d, rest) ∧ toList rest = l := by
  induction bs with
  | nil => simp at h
  | cons b tail ih =>
    cases b with
    | nil =>
      simp at h
      obtain ⟨rest, hr, ht⟩ := ih h
      exact ⟨rest, by simpa [pullBatches] using hr, ht⟩
    | cons e ds =>
      simp at h
      obtain ⟨he, hl⟩ := h
      subst he
      exact ⟨BatchSource.batches (ds :: tail), by simp [pullBatches], by simp [toList, hl]⟩

lemma pull_none_iff (src : BatchSource) : pull src = none ↔ toList src = [] := by
  cases src with
  | docs l => cases l <;> simp [pull, toList]
  | batches bs => simpa [pull, toList] using pullBatches_none_iff bs

lemma pull_some_toList {src : BatchSource} {d : RawDocument} {rest : BatchSource}
    (h : pull src = some (d, rest)) : toList src = d :: toList rest := by
  cases src with
  | docs l =>
    cases l with
    | nil => simp [pull] at h
    | cons e tail =>
      simp [pull] at h
      obtain ⟨he, hrest⟩ := h
      subst he
      simp [← hrest, toList]
  | batches bs =>
    simpa [toList] using pullBatches_some (by simpa [pull] using h)

lemma toList_pull (src : BatchSource) {d : RawDocument} {l : List RawDocument}
    (h : toList src = d :: l) :
    ∃ rest, pull src = some (d, rest) ∧ toList rest = l := by
  cases src with
  | docs m =>
    refine ⟨BatchSource.docs l, ?_, rfl⟩
    simp [toList] at h
    simp [h, pull]
  | batches bs =>
    obtain ⟨rest, hr, ht⟩ := pullBatches_cons (by simpa [toList] using h)
    exact ⟨rest, by simpa [pull] using hr, ht⟩

lemma buildRecords_exhausted (s : Schema) :
    ∀ {n : Nat} {src : BatchSource},
      (toList src).length < n →
      (∀ d ∈ toList src, ∃ r, decodeDoc s d = Except.ok r) →
      buildRecords s src n = Except.error DecodeError.exhaustedSource := by
  intro n
  induction n with
  | zero => intro src h _; omega
  | succ n ih =>
    intro src h hdec
    match hp : pull src with
    | none => simp [buildRecords, hp]
    | some (d, rest) =>
      have htl := pull_some_toList hp
      have hd : d ∈ toList src := by simp [htl]
      obtain ⟨r, hr⟩ := hdec d hd
      have hlt : (toList rest).length < n := by
        rw [htl] at h
        simpa using h
      have hrec : buildRecords s rest n = Except.error DecodeError.exhaustedSource :=
        ih hlt (fun e he => hdec e (by simp [htl, he]))
      simp [buildRecords, hp, hr, hrec]

lemma buildRecords_short (s : Schema) :
    ∀ {n : Nat} {src : BatchSource},
      (toList src).length < n → ∃ e, buildRecords s src n = Except.error e := by
  intro n
  induction n with
  | zero => intro src h; omega
  | succ n ih =>
    intro src h
    match hp : pull src with
    | none => exact ⟨DecodeError.exhaustedSource, by simp [buildRecords, hp]⟩
    | some (d, rest) =>
      have htl := pull_some_toList hp
      have hlt : (toList rest).length < n := by
        rw [htl] at h; simpa using h
      match hd : decodeDoc s d with
      | Except.error e => exact ⟨e, by simp [buildRecords, hp, hd]⟩
      | Except.ok r =>
        obtain ⟨e, he⟩ := ih hlt
        exact ⟨e, by simp [buildRecords, hp, hd, he]⟩

/-- C2: a successful `build(S, D, len(D))` over any schema `S` and document
list `D` yields a record array of shape `(len(D),)` whose dtype is exactly
`S`. -/
theorem claim2_shape_dtype :
    ∀ (s : Schema) (D : List RawDocument) (arr : RecordArray),
      build s (BatchSource.docs D) D.length = Except.ok arr →
        arr.shape = [D.length] ∧ arr.records.length = D.length ∧ arr.dtype = s := by
  intro s D arr h
  match hb : buildRecords s (BatchSource.docs D) D.length with
  | Except.error e => simp [build, hb] at h
  | Except.ok rs =>
    simp [build, hb] at h
    have hlen := buildRecords_ok_length hb
    simp [← h, RecordArray.shape, hlen]

/-- Instantiation of C2 at the one-document, one-int32-field batch. -/
theorem claim2_shape_dtype_witness :
    ({ dtype := dtype2, records := [[("x", FieldValue.intVal 5)]] } : RecordArray).shape =
      [([[("x", BsonValue.int32 5)]] : List RawDocument).length] ∧
    ({ dtype := dtype2, records := [[("x", FieldValue.intVal 5)]] } : RecordArray).records.length =
      ([[("x", BsonValue.int32 5)]] : List RawDocument).length ∧
    ({ dtype := dtype2, records := [[("x", FieldValue.intVal 5)]] } : RecordArray).dtype = dtype2 :=
  claim2_shape_dtype dtype2 [[("x", BsonValue.int32 5)]]
    { dtype := dtype2, records := [[("x", FieldValue.intVal 5)]] }
    (by simp [build, buildRecords, pull, decodeDoc, dtype2, decodeFields,
      decodeField, lookupKey, joinPath])

/-- C7: `build` is all-or-nothing: a successful call returns exactly
`record_count` records tagged with the schema (the `Except` result makes a
partially decoded array unobservable); a source yielding fewer documents
than `record_count` always fails, and fails with `ExhaustedSourceError`
whenever no earlier per-document decode error preempts it. -/
theorem claim7_all_or_nothing :
    (∀ (s : Schema) (src : BatchSource) (rc : Nat) (arr : RecordArray),
      build s src rc = Except.ok arr → arr.records.length = rc ∧ arr.dtype = s) ∧
    (∀ (s : Schema) (src : BatchSource) (rc : Nat),
      (toList src).length < rc → ∃ e, build s src rc = Except.error e) ∧
    (∀ (s : Schema) (src : BatchSource) (rc : Nat),
      (toList src).length < rc →
      (∀ d ∈ toList src, ∃ r, decodeDoc s d = Except.ok r) →
      build s src rc = Except.error DecodeError.exhaustedSource) := by
  refine ⟨?_, ?_, ?_⟩
  · intro s src rc arr h
    match hb : buildRecords s src rc with
    | Except.error e => simp [build, hb] at h
    | Except.ok rs =>
      simp [build, hb] at h
      simp [← h, buildRecords_ok_length hb]
  · intro s src rc h
    obtain ⟨e, he⟩ := buildRecords_short s h
    exact ⟨e, by simp [build, he]⟩
  · intro s src rc h hdec
    simp [build, buildRecords_exhausted s h hdec]

/-- Instantiation of C7: the successful one-record build, and the build of
one record from an empty source failing with `ExhaustedSourceError`. -/
theorem claim7_all_or_nothing_witness :
    (({ dtype := dtype2, records := [[("x", FieldValue.intVal 5)]] } : RecordArray).records.length = 1 ∧
     ({ dtype := dtype2, records := [[("x", FieldValue.intVal 5)]] } : RecordArray).dtype = dtype2) ∧
    build dtype2 (BatchSource.docs []) 1 = Except.error DecodeError.exhaustedSource :=
  ⟨claim7_all_or_nothing.1 dtype2 (BatchSource.docs [[("x", BsonValue.int32 5)]]) 1
      { dtype := dtype2, records := [[("x", FieldValue.intVal 5)]] }
      (by simp [build, buildRecords, pull, decodeDoc, dtype2, decodeFields,
        decodeField, lookupKey, joinPath]),
   claim7_all_or_nothing.2.2 dtype2 (BatchSource.docs []) 1 (by simp [toList])
      (by simp [toList])⟩

lemma buildRecords_toList (s : Schema) :
    ∀ {n : Nat} {src1 src2 : BatchSource}, toList src1 = toList src2 →
      buildRecords s src1 n = buildRecords s src2 n := by
  intro n
  induction n with
  | zero => intro src1 src2 _; rfl
  | succ n ih =>
    intro src1 src2 h
    match hp : pull src1 with
    | none =>
      have h1 : toList src1 = [] := (pull_none_iff src1).mp hp
      have h2 : pull src2 = none := (pull_none_iff src2).mpr (by rw [← h, h1])
      simp [buildRecords, hp, h2]
    | some (d, rest1) =>
      have h1 := pull_some_toList hp
      obtain ⟨rest2, hp2, ht2⟩ := toList_pull src2 (by rw [← h, h1])
      have hr : toList rest1 = toList rest2 := by rw [ht2]
      simp [buildRecords, hp, hp2, ih hr]

/-- C9: the admissible batch-source shapes are interchangeable: any two
sources yielding the same raw documents in the same overall order (an
in-memory or lazily produced document sequence, or pre-grouped batches
flattened in batch order then document order) give equal `build` results
for the same schema and record count. -/
theorem claim9_source_shapes :
    (∀ (s : Schema) (rc : Nat) (src1 src2 : BatchSource),
      toList src1 = toList src2 → build s src1 rc = build s src2 rc) ∧
    (∀ (s : Schema) (rc : Nat) (docs : List RawDocument)
        (bs : List (List RawDocument)), bs.flatten = docs →
      build s (BatchSource.batches bs) rc = build s (BatchSource.docs docs) rc) := by
  have key : ∀ (s : Schema) (rc : Nat) (src1 src2 : BatchSource),
      toList src1 = toList src2 → build s src1 rc = build s src2 rc := by
    intro s rc src1 src2 h
    rw [build, build, buildRecords_toList s h]
  exact ⟨key, fun s rc docs bs h =>
    key s rc (BatchSource.batches bs) (BatchSource.docs docs) (by simpa [toList] using h)⟩

/-- Instantiation of C9: a two-batch grouping of two documents builds the
same array as the flat two-document sequence. -/
theorem claim9_source_shapes_witness :
    build dtype2
      (BatchSource.batches [[[("x", BsonValue.int32 1)]], [], [[("x", BsonValue.int32 2)]]]) 2 =
    build dtype2
      (BatchSource.docs [[("x", BsonValue.int32 1)], [("x", BsonValue.int32 2)]]) 2 :=
  claim9_source_shapes.2 dtype2 2
    [[("x", BsonValue.int32 1)], [("x", BsonValue.int32 2)]]
    [[[("x", BsonValue.int32 1)]], [], [[("x", BsonValue.int32 2)]]]
    (by simp)

lemma lookupKey_append_of_none {k : String} {d2 : RawDocument}
    (h : lookupKey k d2 = none) (d1 : RawDocument) :
    lookupKey k (d1 ++ d2) = lookupKey k d1 := by
  induction d1 with
  | nil => simpa [lookupKey] using h
  | cons e rest ih =>
    cases e with
    | mk key v =>
      by_cases hk : key = k <;> simp [lookupKey, hk, ih]

lemma decodeFields_missing :
    ∀ (s : List (String × FieldType)) (path : String) (doc : RawDocument),
      (∃ f ∈ s, lookupKey f.1 doc = none) →
      (∀ f ∈ s, ∀ v, lookupKey f.1 doc = some v →
        ∃ fv, decodeField f.2 (joinPath path f.1) v = Except.ok fv) →
      ∃ p, decodeFields s path doc = Except.error (DecodeError.fieldMissing p) := by
  intro s
  induction s with
  | nil => intro path doc h _; simp at h
  | cons f rest ih =>
    intro path doc h hok
    cases f with
    | mk name t =>
      match hl : lookupKey name doc with
      | none => exact ⟨joinPath path name, by simp [decodeFields, hl]⟩
      | some v =>
        obtain ⟨fv, hfv⟩ := hok (name, t) (by simp) v hl
        have hrest : ∃ f ∈ rest, lookupKey f.1 doc = none := by
          obtain ⟨g, hg, hgl⟩ := h
          rcases List.mem_cons.mp hg with hg1 | hg2
          · rw [hg1] at hgl; simp at hgl; rw [hgl] at hl; cases hl
          · exact ⟨g, hg2, hgl⟩
        obtain ⟨p, hp⟩ := ih path doc hrest
          (fun g hg v2 hv2 => hok g (List.mem_cons_of_mem _ hg) v2 hv2)
        exact ⟨p, by simp [decodeFields, hl, hfv, hp]⟩

lemma decodeFields_extra :
    ∀ (s : List (String × FieldType)) (path : String) (doc extra : RawDocument),
      (∀ f ∈ s, lookupKey f.1 extra = none) →
      decodeFields s path (doc ++ extra) = decodeFields s path doc := by
  intro s
  induction s with
  | nil => intro path doc extra _; simp [decodeFields]
  | cons f rest ih =>
    intro path doc extra h
    cases f with
    | mk name t =>
      have hn : lookupKey name extra = none := h (name, t) (by simp)
      have hl := lookupKey_append_of_none hn doc
      have hr := ih path doc extra (fun g hg => h g (List.mem_cons_of_mem _ hg))
      simp [decodeFields, hl, hr]

/-- C5: a schema field whose key is absent from the document makes decoding
fail with `FieldMissingError` (no default is substituted) provided every
field that is present decodes; and document keys not declared in the schema
are silently ignored — appending keys foreign to the schema never changes
the decode result, so a decodable document stays decodable with extra keys:
the schema acts as a projection over the document. -/
theorem claim5_missing_and_extra_keys :
    (∀ (s : Schema) (doc : RawDocument),
      (∃ f ∈ s, lookupKey f.1 doc = none) →
      (∀ f ∈ s, ∀ v, lookupKey f.1 doc = some v →
        ∃ fv, decodeField f.2 (joinPath "" f.1) v = Except.ok fv) →
      ∃ p, decodeDoc s doc = Except.error (DecodeError.fieldMissing p)) ∧
    (∀ (s : Schema) (doc extra : RawDocument),
      (∀ f ∈ s, lookupKey f.1 extra = none) →
      decodeDoc s (doc ++ extra) = decodeDoc s doc) ∧
    (∀ (s : Schema) (doc extra : RawDocument) (r : RecordValue),
      (∀ f ∈ s, lookupKey f.1 extra = none) →
      decodeDoc s doc = Except.ok r →
      decodeDoc s (doc ++ extra) = Except.ok r) := by
  refine ⟨?_, ?_, ?_⟩
  · intro s doc h hok
    exact decodeFields_missing s "" doc h hok
  · intro s doc extra h
    exact decodeFields_extra s "" doc extra h
  · intro s doc extra r h hr
    rw [decodeDoc, decodeFields_extra s "" doc extra h]
    exact hr

/-- Instantiation of C5: the schema `[('x', int32)]` against the empty
document fails with `FieldMissingError`, and against `{x: 1, q: 2}` decodes
exactly as against `{x: 1}`. -/
theorem claim5_missing_and_extra_keys_witness :
    (∃ p, decodeDoc dtype2 [] = Except.error (DecodeError.fieldMissing p)) ∧
    decodeDoc dtype2 ([("x", BsonValue.int32 1)] ++ [("q", BsonValue.int32 2)]) =
      decodeDoc dtype2 [("x", BsonValue.int32 1)] :=
  ⟨claim5_missing_and_extra_keys.1 dtype2 []
      (by exact ⟨("x", FieldType.int32), by simp [dtype2], by simp [lookupKey]⟩)
      (by intro f hf v hv; simp [lookupKey] at hv),
   claim5_missing_and_extra_keys.2.1 dtype2 [("x", BsonValue.int32 1)]
      [("q", BsonValue.int32 2)]
      (by intro f hf; simp [dtype2] at hf; simp [hf, lookupKey])⟩

/-- C6: decoding a sub-array field fails with `ShapeMismatchError` whenever
the source BSON array's length differs from the product of the declared
shape dimensions; in particular a length-3 array against declared shape
`(2,)` aborts its enclosing `build`, which returns no array. -/
theorem claim6_shape_mismatch :
    (∀ (dims : List Nat) (base : FieldType) (path : String) (elems : List BsonValue),
      elems.length ≠ dims.prod →
      decodeField (FieldType.subarray dims base) path (BsonValue.array elems) =
        Except.error (DecodeError.shapeMismatch path)) ∧
    build [("x", FieldType.subarray [2] FieldType.int32)]
      (BatchSource.docs
        [[("x", BsonValue.array [BsonValue.int32 1, BsonValue.int32 2, BsonValue.int32 3])]]) 1 =
      Except.error (DecodeError.shapeMismatch "x") := by
  constructor
  · intro dims base path elems h
    simp [decodeField, h]
  · simp [build, buildRecords, pull, decodeDoc, decodeFields, decodeField,
      lookupKey, joinPath]

/-- Instantiation of C6: a length-3 array against declared shape `(2,)`. -/
theorem claim6_shape_mismatch_witness :
    decodeField (FieldType.subarray [2] FieldType.int32) "x"
      (BsonValue.array [BsonValue.int32 1, BsonValue.int32 2, BsonValue.int32 3]) =
      Except.error (DecodeError.shapeMismatch "x") :=
  claim6_shape_mismatch.1 [2] FieldType.int32 "x"
    [BsonValue.int32 1, BsonValue.int32 2, BsonValue.int32 3] (by simp)

/-- C8: a fixed-width string field never errors: the UTF-8 byte payload is
written at exactly the declared width — a value whose byte length is at
least the width is silently truncated to exactly the width, and a shorter
value is zero-padded up to the width. -/
theorem claim8_fixed_string :
    ∀ (w : Nat) (path : String) (bs : List Nat),
      decodeField (FieldType.fixedString w) path (BsonValue.strVal bs) =
        Except.ok (FieldValue.bytesVal (bs.take w ++ List.replicate (w - bs.length) 0)) ∧
      (bs.take w ++ List.replicate (w - bs.length) 0).length = w ∧
      (w ≤ bs.length → bs.take w ++ List.replicate (w - bs.length) 0 = bs.take w ∧
        (bs.take w).length = w) ∧
      (bs.length ≤ w →
        bs.take w ++ List.replicate (w - bs.length) 0 = bs ++ List.replicate (w - bs.length) 0) := by
  intro w path bs
  refine ⟨by simp [decodeField], ?_, ?_, ?_⟩
  · simp
    omega
  · intro h
    constructor
    · have : w - bs.length = 0 := by omega
      simp [this]
    · simp
      omega
  · intro h
    rw [List.take_of_length_le h]

/-- Instantiation of C8: a 12-byte value against width 11 is truncated to
exactly 11 bytes with no error; a 2-byte value against width 11 is
zero-padded. -/
theorem claim8_fixed_string_witness :
    (decodeField (FieldType.fixedString 11) "y" (BsonValue.strVal (List.replicate 12 97)) =
      Except.ok (FieldValue.bytesVal
        ((List.replicate 12 97).take 11 ++
          List.replicate (11 - (List.replicate 12 97).length) 0)) ∧
     (List.replicate 12 97).take 11 ++ List.replicate (11 - (List.replicate 12 97).length) 0 =
       (List.replicate 12 97).take 11 ∧
     ((List.replicate 12 97).take 11).length = 11) ∧
    [97, 98].take 11 ++ List.replicate (11 - [97, 98].length) 0 =
      [97, 98] ++ List.replicate (11 - [97, 98].length) 0 :=
  ⟨⟨(claim8_fixed_string 11 "y" (List.replicate 12 97)).1,
    (claim8_fixed_string 11 "y" (List.replicate 12 97)).2.2.1 (by simp)⟩,
   (claim8_fixed_string 11 "y" [97, 98]).2.2.2 (by simp)⟩

/-- C10: for every schema, `build` with `record_count = 0` succeeds with a
zero-length record array tagged with that schema; it does so for every
source alike (in particular the empty one), pulling no documents. -/
theorem claim10_zero_count :
    ∀ s : Schema,
      build s (BatchSource.docs []) 0 = Except.ok { dtype := s, records := [] } ∧
      ∀ src : BatchSource, build s src 0 = Except.ok { dtype := s, records := [] } := by
  intro s
  exact ⟨rfl, fun src => rfl⟩



